import Mathlib

/-!
Shallow embedding of the realtime transcription server
(`Web/routes/realtime.py`, `Web/services/ffmpeg_pipe.py`,
`Web/services/sessions.py`).

Seconds are modelled as rationals (the Python code uses floats only for
comparisons `target <= last + 0.5` and `max(0.0, dur - 2.0)` on small
values, where the arithmetic is exact).  Byte strings are lists of
naturals; transcripts are Lean `String`s (Python `len` on `str` counts
code points, as does `String.length`).  External effects (the ffmpeg
process, the OS write, the Whisper model) enter as explicit oracle
arguments, and exceptions raised by them are modelled by the value the
surrounding `try/except` turns them into.
-/

/-- A transcription segment as returned by `model.transcribe`: its text and
its end time in seconds (`s.text`, `s.end`). -/
structure Seg where
  text : String
  endSec : ℚ
deriving Repr, DecidableEq

/-- State of `FFmpegPipe` (`ffmpeg_pipe.py`): the lowered media-type hint,
the process handle `self.p` and the reader-thread handle `self.reader`
(`none` models Python `None`; the payload is an opaque handle id). -/
structure FFmpegPipe where
  mtype : String
  p : Option Nat
  reader : Option Nat
deriving Repr, DecidableEq

/-- Python `str.lower()`: lower-case every character (media types are
ASCII, where `Char.toLower` agrees with Python). -/
def strLower (s : String) : String :=
  ⟨s.data.map Char.toLower⟩

/-- Constructor of `FFmpegPipe`: stores `(mtype or "").lower()`; no process or
reader yet. -/
def FFmpegPipe.init (mtype : String) : FFmpegPipe :=
  { mtype := strLower mtype, p := none, reader := none }

/-- Whether `pat` occurs as a contiguous substring of `s` (Python `in` on
`str`). -/
def listHasSub (pat : List Char) : List Char → Bool
  | [] => pat.isEmpty
  | c :: rest => pat.isPrefixOf (c :: rest) || listHasSub pat rest

/-- Python `pat in s` for strings. -/
def strHasSub (s pat : String) : Bool :=
  listHasSub pat.toList s.toList

/-- Model of `FFmpegPipe._in_args`: the input-format flag derived from the stored
(lowered) media type. -/
def FFmpegPipe.in_args (ff : FFmpegPipe) : List String :=
  let mt := ff.mtype
  if strHasSub mt "ogg" then ["-f", "ogg"]
  else if strHasSub mt "webm" then ["-f", "webm"]
  else if strHasSub mt "mp4" || strHasSub mt "mpeg" then ["-f", "mp4"]
  else []

/-- Model of `FFmpegPipe.start`: `if self.p: return` (no-op when the process handle
is set); otherwise spawn the process and the reader thread.  The fresh
handles are oracle arguments; the returned flag records whether a spawn
happened. -/
def FFmpegPipe.start (ff : FFmpegPipe) (proc rdr : Nat) : FFmpegPipe × Bool :=
  match ff.p with
  | some _ => (ff, false)
  | none => ({ ff with p := some proc, reader := some rdr }, true)

/-- Model of `FFmpegPipe.write`: returns `False` when `self.p` is `None` (the
process was never started or `close` cleared it); otherwise the result of
the OS write, with a raised exception caught and turned into `False`
(`osOk` is the oracle for "the write and flush succeeded").  The data
itself does not influence the result. -/
def FFmpegPipe.write (ff : FFmpegPipe) (_data : List Nat) (osOk : Bool) : Bool :=
  match ff.p with
  | none => false
  | some _ => osOk

/-- Actions `FFmpegPipe.close` performs on the outside world. -/
inductive CloseAct where
  | stdinClosed
  | waited
  | joined
deriving Repr, DecidableEq

/-- Model of `FFmpegPipe.close`: closes stdin, waits for the process and joins the
reader, each wrapped in `try/except: pass`; the `finally` block clears
`self.p` and `self.reader` unconditionally.  The three oracle booleans say
whether the corresponding call raised or timed out; they cannot influence
the resulting state because every call is inside its own
`try/except: pass` and the clearing is in `finally`. -/
def FFmpegPipe.close (ff : FFmpegPipe)
    (_stdinRaised _waitTimedOut _joinTimedOut : Bool) :
    FFmpegPipe × List CloseAct :=
  let acts :=
    (if ff.p.isSome then [CloseAct.stdinClosed, CloseAct.waited] else []) ++
    (if ff.reader.isSome then [CloseAct.joined] else [])
  ({ ff with p := none, reader := none }, acts)

/-- The fields of `RTSession` (`sessions.py`) the realtime routes use.
Subscriber channels (`sse_subs`) are modelled as lists of pending texts;
`q` is the worker signal queue (signals carry `None`). -/
structure RTSession where
  stop_flag : Bool
  last_decoded_sec : ℚ
  text_accum : String
  sse_subs : List (List String)
  ff : Option FFmpegPipe
  pcm_frames : Nat
  q : List Unit
deriving Repr, DecidableEq

/-- Model of `_notify_subscribers`: `put_nowait` the text on every subscriber
channel (a full queue is unbounded here, so the put always succeeds). -/
def _notify_subscribers (subs : List (List String)) (text : String) :
    List (List String) :=
  subs.map (fun qsub => qsub ++ [text])

/-- The candidate transcript built in `_worker`:
`"".join(s.text for s in segs if s.end <= target_until)`. -/
def cycleText (segs : List Seg) (target : ℚ) : String :=
  segs.foldl (fun acc s => if s.endSec ≤ target then acc ++ s.text else acc) ""

/-- The spec's description of the candidate: the in-order concatenation of
exactly those returned segments whose end time is at most the target. -/
def specCandidateText (segs : List Seg) (target : ℚ) : String :=
  String.join ((segs.filter (fun s => decide (s.endSec ≤ target))).map Seg.text)

/-- Result of one wake-up of the decode worker: the updated session, and
whether the engine (`model.transcribe`) was invoked this cycle. -/
structure CycleResult where
  sess : RTSession
  decoded : Bool
  adopted : Bool
deriving Repr, DecidableEq

/-- One wake-up of `_worker` after a signal was received (lines 41-66 of
`realtime.py`): compute `target_until = max(0.0, dur - 2.0)`, skip when
`target_until <= last_decoded_sec + 0.5`, otherwise decode (the segments
are the decode oracle) and adopt the candidate when
`len(txt) >= len(text_accum)`, advancing the boundary and notifying
subscribers. -/
def workerCycle (s : RTSession) (dur : ℚ) (segs : List Seg) : CycleResult :=
  let target := max 0 (dur - 2)
  if target ≤ s.last_decoded_sec + 1/2 then
    { sess := s, decoded := false, adopted := false }
  else
    let txt := cycleText segs target
    if s.text_accum.length ≤ txt.length then
      { sess := { s with
            text_accum := txt
            last_decoded_sec := target
            sse_subs := _notify_subscribers s.sse_subs txt }
        decoded := true, adopted := true }
    else
      { sess := s, decoded := true, adopted := false }

/-- A session's decode cycles over its lifetime: each entry of the trace
gives the sink duration observed at the wake-up and the segments the
engine would return. -/
def runWorker (s : RTSession) : List (ℚ × List Seg) → RTSession
  | [] => s
  | (dur, segs) :: rest => runWorker (workerCycle s dur segs).sess rest

/-- Control skeleton of the `_worker` loop (lines 35-40): per iteration the
pair gives the value of `stop_flag` observed at the `while` test and the
value observed right after a successful `q.get`; the queue is the pending
signal list (`q.get` with a timeout raises `Empty` on an empty queue and
the loop continues).  Returns whether the loop exited within the schedule
and the signals still pending at that point. -/
def workerLoop : List (Bool × Bool) → List Unit → Bool × List Unit
  | [], q => (false, q)
  | (stopTop, stopAfter) :: rest, q =>
    if stopTop then (true, q)
    else
      match q with
      | [] => workerLoop rest []
      | _ :: qrest =>
        if stopAfter then (true, qrest) else workerLoop rest qrest

/-- A concrete session used to instantiate theorems: one subscriber with an
empty channel, nothing confirmed yet. -/
def s0 : RTSession :=
  { stop_flag := false, last_decoded_sec := 0, text_accum := "",
    sse_subs := [[]], ff := none, pcm_frames := 0, q := [] }

/-- Whether the schedule makes the loop observe a set stop flag: either at
the top of an iteration, or right after a dequeue that succeeded (which
requires a pending signal). -/
def stopObservedIn : List (Bool × Bool) → List Unit → Bool
  | [], _ => false
  | (stopTop, stopAfter) :: rest, q =>
    stopTop ||
      match q with
      | [] => stopObservedIn rest []
      | _ :: qrest => stopAfter || stopObservedIn rest qrest

/-- A Flask response: body and status code (a bare string return means
status 200). -/
structure HttpResp where
  body : String
  status : Nat
deriving Repr, DecidableEq

/-- What a `rt_push` call did besides producing a response. -/
structure PushEffects where
  pipeStarted : Bool
  wrote : Option (List Nat)
deriving Repr, DecidableEq

/-- Python falsiness of `request.form.get(...)`: `None` when the field is
absent, and the empty string is falsy too. -/
def formFalsy : Option String → Bool
  | none => true
  | some s => s.isEmpty

/-- The `write_pcm` callback installed on the first push: append the PCM
block to the wav sink (`pcm_frames += len(buf)//2`) and `put_nowait` a
signal for the decode worker. -/
def write_pcm (s : RTSession) (buf : List Nat) : RTSession :=
  { s with pcm_frames := s.pcm_frames + buf.length / 2, q := s.q ++ [()] }

/-- Model of `rt_push` (lines 85-113 of `realtime.py`).  `sid` and `chunk` are the
form field and uploaded file (`none` when absent); `sess` is the result of
`store.get(sid)`; `writeOk` is the oracle for the OS-level pipe write;
`proc`/`rdr` are the handles a spawn would produce.  Returns the response,
the session state after the call (when a session was found) and the
effects. -/
def rt_push (sid : Option String) (mtype : String)
    (chunk : Option (List Nat)) (sess : Option RTSession)
    (writeOk : Bool) (proc rdr : Nat) :
    HttpResp × Option RTSession × PushEffects :=
  if formFalsy sid then
    ({ body := "missing sid", status := 400 }, sess,
      { pipeStarted := false, wrote := none })
  else
    match sess with
    | none =>
      ({ body := "gone", status := 410 }, none,
        { pipeStarted := false, wrote := none })
    | some s =>
      match chunk with
      | none =>
        ({ body := "no chunk", status := 400 }, some s,
          { pipeStarted := false, wrote := none })
      | some data =>
        if data.isEmpty then
          ({ body := "ok", status := 200 }, some s,
            { pipeStarted := false, wrote := none })
        else
          let startRes : RTSession × Bool :=
            match s.ff with
            | some _ => (s, false)
            | none =>
              let ff0 := FFmpegPipe.init mtype
              let ff1 := (ff0.start proc rdr).1
              ({ s with ff := some ff1 }, true)
          let s1 := startRes.1
          let ok :=
            match s1.ff with
            | none => false
            | some ff => ff.write data writeOk
          if ok then
            ({ body := "ok", status := 200 }, some s1,
              { pipeStarted := startRes.2, wrote := some data })
          else
            ({ body := "gone", status := 410 }, some s1,
              { pipeStarted := startRes.2, wrote := some data })

/-- Outcome of one `qsub.get(timeout=10.0)` in the stream generator:
either a broadcast text arrived, or the wait timed out. -/
inductive WaitOutcome where
  | got (t : String)
  | timedOut
deriving Repr, DecidableEq

/-- One iteration of the stream generator loop: the `stop_flag` value
observed at the `while` test, the wait outcome, and the session's
`text_accum` at that moment. -/
structure StreamStep where
  stopFlag : Bool
  outcome : WaitOutcome
  accum : String
deriving Repr, DecidableEq

/-- The text emitted for one loop iteration of `rt_stream`'s generator: the
received broadcast, or on timeout the current confirmed text. -/
def streamEvent (st : StreamStep) : String :=
  match st.outcome with
  | .got t => t
  | .timedOut => st.accum

/-- The loop of the generator: stops when `stop_flag` is observed,
otherwise emits one event per iteration. -/
def streamBody : List StreamStep → List String
  | [] => []
  | st :: rest =>
    if st.stopFlag then [] else streamEvent st :: streamBody rest

/-- The full event sequence of `rt_stream`'s generator: the first `yield`
is the current confirmed text (before any wait), then the loop.  SSE
framing (`data: ...`) is abstracted away; an event is its text payload. -/
def streamGen (initAccum : String) (steps : List StreamStep) : List String :=
  initAccum :: streamBody steps

/-- Model of `rt_stream` (lines 115-137): the subscriber channel `qid` is appended
to `sse_subs` (channels are identified by an id, standing for Python
object identity), the client consumes `consumed` events before the
generator is closed (disconnect, stop, or exhaustion — every exit path
runs the `finally`, which removes the channel, ignoring `ValueError`).
Returns the events actually delivered and the subscriber list after the
generator finished. -/
def rt_stream (subs : List Nat) (qid : Nat) (initAccum : String)
    (steps : List StreamStep) (consumed : Nat) : List String × List Nat :=
  ((streamGen initAccum steps).take consumed, (subs ++ [qid]).erase qid)

/-- The final transcript built in `rt_stop`:
`"".join(s.text for s in segments)` — every returned segment, with no
trailing guard. -/
def finalText (segs : List Seg) : String :=
  segs.foldl (fun acc s => acc ++ s.text) ""

/-- Result of `rt_stop` beyond the session state. -/
structure StopResult where
  returned : String
  decodes : Nat
  httpFailed : Bool
deriving Repr, DecidableEq

/-- Modelled from the spec: the head of `rt_stop` is elided in the source
(line 141 is a bare `...`), so setting `stopped`, and the handler
returning the final text without failing, follow the spec's words; the
pipe close / sink close and the finalize block (lines 142-163) follow the
source.  `decodeRes` is the decode oracle: `.ok segs` when
`model.transcribe` returned segments, `.error ()` when it raised.  On
success the confirmed text is replaced unconditionally and broadcast; on
failure the exception is logged and the previous text is retained. -/
def rt_stop (s : RTSession) (decodeRes : Except Unit (List Seg)) :
    RTSession × StopResult :=
  let s1 := { s with stop_flag := true, ff := none }
  match decodeRes with
  | .ok segs =>
    let text := finalText segs
    ({ s1 with
        text_accum := text
        sse_subs := _notify_subscribers s1.sse_subs text },
      { returned := text, decodes := 1, httpFailed := false })
  | .error _ =>
    (s1, { returned := s1.text_accum, decodes := 1, httpFailed := false })

/-! Helper lemmas about string concatenation and the worker cycle. -/

lemma strFoldlAppend (l : List String) :
    ∀ a : String,
      l.foldl (fun x y => x ++ y) a = a ++ l.foldl (fun x y => x ++ y) "" := by
  induction l with
  | nil => intro a; simp
  | cons b t ih =>
    intro a
    simp only [List.foldl_cons]
    rw [ih (a ++ b), String.empty_append, ih b, String.append_assoc]

lemma strJoinCons (a : String) (l : List String) :
    String.join (a :: l) = a ++ String.join l := by
  show List.foldl (fun x y => x ++ y) "" (a :: l) = _
  simp only [List.foldl_cons]
  rw [strFoldlAppend l ("" ++ a), String.empty_append]
  rfl

lemma cycleText_go (target : ℚ) :
    ∀ (segs : List Seg) (acc : String),
      segs.foldl (fun a s => if s.endSec ≤ target then a ++ s.text else a) acc
        = acc ++ specCandidateText segs target := by
  intro segs
  induction segs with
  | nil =>
    intro acc
    simp [specCandidateText, String.join]
  | cons s rest ih =>
    intro acc
    by_cases h : s.endSec ≤ target
    · simp only [List.foldl_cons, if_pos h, ih, specCandidateText,
        List.filter_cons, decide_eq_true h, if_pos, List.map_cons,
        strJoinCons, String.append_assoc]
    · simp only [List.foldl_cons, if_neg h, ih, specCandidateText,
        List.filter_cons, decide_eq_false h, if_neg, Bool.false_eq_true,
        ite_false]

lemma cycleText_eq_spec (segs : List Seg) (target : ℚ) :
    cycleText segs target = specCandidateText segs target := by
  rw [cycleText, cycleText_go, String.empty_append]

lemma workerCycle_last_le (s : RTSession) (dur : ℚ) (segs : List Seg) :
    s.last_decoded_sec ≤ (workerCycle s dur segs).sess.last_decoded_sec := by
  unfold workerCycle
  dsimp only
  split
  · exact le_refl _
  next h =>
    split
    · dsimp only
      have h2 : s.last_decoded_sec + 1 / 2 < max 0 (dur - 2) := lt_of_not_le h
      linarith
    · exact le_refl _

lemma workerCycle_len_le (s : RTSession) (dur : ℚ) (segs : List Seg) :
    s.text_accum.length ≤ (workerCycle s dur segs).sess.text_accum.length := by
  unfold workerCycle
  dsimp only
  split
  · exact le_refl _
  next h =>
    split
    next h2 => exact h2
    · exact le_refl _

lemma workerCycle_skip (s : RTSession) (dur : ℚ) (segs : List Seg)
    (h : max 0 (dur - 2) ≤ s.last_decoded_sec + 1/2) :
    workerCycle s dur segs = { sess := s, decoded := false, adopted := false } := by
  simp only [workerCycle]
  rw [if_pos h]

lemma workerCycle_adopted (s : RTSession) (dur : ℚ) (segs : List Seg)
    (h : (workerCycle s dur segs).adopted = true) :
    (workerCycle s dur segs).sess.text_accum = cycleText segs (max 0 (dur - 2)) ∧
    (workerCycle s dur segs).sess.last_decoded_sec = max 0 (dur - 2) ∧
    (workerCycle s dur segs).sess.sse_subs
      = _notify_subscribers s.sse_subs (cycleText segs (max 0 (dur - 2))) := by
  by_cases h1 : max 0 (dur - 2) ≤ s.last_decoded_sec + 1/2
  · rw [workerCycle_skip s dur segs h1] at h
    exact absurd h (by simp)
  · by_cases h2 : s.text_accum.length ≤ (cycleText segs (max 0 (dur - 2))).length
    · simp only [workerCycle]
      rw [if_neg h1, if_pos h2]
      exact ⟨rfl, rfl, rfl⟩
    · simp only [workerCycle] at h
      rw [if_neg h1, if_neg h2] at h
      exact absurd h (by simp)

lemma workerCycle_not_adopted (s : RTSession) (dur : ℚ) (segs : List Seg)
    (h : (workerCycle s dur segs).adopted = false) :
    (workerCycle s dur segs).sess = s := by
  by_cases h1 : max 0 (dur - 2) ≤ s.last_decoded_sec + 1/2
  · rw [workerCycle_skip s dur segs h1]
  · by_cases h2 : s.text_accum.length ≤ (cycleText segs (max 0 (dur - 2))).length
    · simp only [workerCycle] at h
      rw [if_neg h1, if_pos h2] at h
      exact absurd h (by simp)
    · simp only [workerCycle]
      rw [if_neg h1, if_neg h2]

lemma runWorker_last_le : ∀ (trace : List (ℚ × List Seg)) (s : RTSession),
    s.last_decoded_sec ≤ (runWorker s trace).last_decoded_sec := by
  intro trace
  induction trace with
  | nil => intro s; exact le_refl _
  | cons p rest ih =>
    intro s
    obtain ⟨dur, segs⟩ := p
    simp only [runWorker]
    exact le_trans (workerCycle_last_le s dur segs) (ih _)

lemma runWorker_len_le : ∀ (trace : List (ℚ × List Seg)) (s : RTSession),
    s.text_accum.length ≤ (runWorker s trace).text_accum.length := by
  intro trace
  induction trace with
  | nil => intro s; exact le_refl _
  | cons p rest ih =>
    intro s
    obtain ⟨dur, segs⟩ := p
    simp only [runWorker]
    exact le_trans (workerCycle_len_le s dur segs) (ih _)

lemma eval_cycle_adopt :
    workerCycle s0 5 [⟨"ab", 1⟩] =
      { sess := { stop_flag := false, last_decoded_sec := 3, text_accum := "ab",
                  sse_subs := [["ab"]], ff := none, pcm_frames := 0, q := [] },
        decoded := true, adopted := true } := by
  have h1 : ¬ (max 0 ((5:ℚ) - 2) ≤ s0.last_decoded_sec + 1/2) := by norm_num [s0]
  have htxt : cycleText [⟨"ab", 1⟩] (max 0 ((5:ℚ) - 2)) = "ab" := by
    simp only [cycleText, List.foldl_cons, List.foldl_nil]
    rw [if_pos (by norm_num : ((1:ℚ) ≤ max 0 ((5:ℚ) - 2)))]
    exact String.empty_append _
  have h2 : s0.text_accum.length ≤ (cycleText [⟨"ab", 1⟩] (max 0 ((5:ℚ) - 2))).length := by
    rw [htxt]
    exact Nat.zero_le _
  simp only [workerCycle]
  rw [if_neg h1, if_pos h2, htxt]
  norm_num [_notify_subscribers, s0]

lemma eval_cycle_skip :
    workerCycle s0 1 [] = { sess := s0, decoded := false, adopted := false } :=
  workerCycle_skip s0 1 [] (by norm_num [s0])

/-- C1: over a session's lifetime the confirmed boundary
(`last_decoded_sec`) never decreases and the confirmed text
(`text_accum`) never gets shorter in the decode worker; a cycle changes
the confirmed text only when the candidate is at least as long, and on
adoption the boundary is advanced to the computed target and the new text
is broadcast to every subscriber; a cycle that adopts nothing leaves the
session unchanged. -/
theorem worker_boundary_text_monotone :
    (∀ (s : RTSession) (trace : List (ℚ × List Seg)),
        s.last_decoded_sec ≤ (runWorker s trace).last_decoded_sec ∧
        s.text_accum.length ≤ (runWorker s trace).text_accum.length) ∧
    (∀ (s : RTSession) (dur : ℚ) (segs : List Seg),
        ((workerCycle s dur segs).sess.text_accum ≠ s.text_accum →
          s.text_accum.length ≤ (workerCycle s dur segs).sess.text_accum.length) ∧
        ((workerCycle s dur segs).adopted = true →
          (workerCycle s dur segs).sess.last_decoded_sec = max 0 (dur - 2) ∧
          (workerCycle s dur segs).sess.sse_subs
            = _notify_subscribers s.sse_subs
                (workerCycle s dur segs).sess.text_accum) ∧
        ((workerCycle s dur segs).adopted = false →
          (workerCycle s dur segs).sess = s)) := by
  constructor
  · intro s trace
    exact ⟨runWorker_last_le trace s, runWorker_len_le trace s⟩
  · intro s dur segs
    refine ⟨fun _ => workerCycle_len_le s dur segs, fun h => ?_,
      fun h => workerCycle_not_adopted s dur segs h⟩
    obtain ⟨ht, hl, hs⟩ := workerCycle_adopted s dur segs h
    refine ⟨hl, ?_⟩
    rw [hs, ht]

/-- Instantiation of `worker_boundary_text_monotone` at concrete inputs:
an adopting cycle (duration 5s, one segment ending at 1s) and a skipping
cycle (duration 1s). -/
theorem worker_boundary_text_monotone_witness :
    ((workerCycle s0 5 [⟨"ab", 1⟩]).sess.text_accum ≠ s0.text_accum ∧
      s0.text_accum.length
        ≤ (workerCycle s0 5 [⟨"ab", 1⟩]).sess.text_accum.length) ∧
    ((workerCycle s0 5 [⟨"ab", 1⟩]).adopted = true ∧
      (workerCycle s0 5 [⟨"ab", 1⟩]).sess.last_decoded_sec = max 0 (5 - 2) ∧
      (workerCycle s0 5 [⟨"ab", 1⟩]).sess.sse_subs
        = _notify_subscribers s0.sse_subs
            (workerCycle s0 5 [⟨"ab", 1⟩]).sess.text_accum) ∧
    ((workerCycle s0 1 []).adopted = false ∧ (workerCycle s0 1 []).sess = s0) := by
  have hne : (workerCycle s0 5 [⟨"ab", 1⟩]).sess.text_accum ≠ s0.text_accum := by
    rw [eval_cycle_adopt]
    decide
  have had : (workerCycle s0 5 [⟨"ab", 1⟩]).adopted = true := by
    rw [eval_cycle_adopt]
  have hsk : (workerCycle s0 1 []).adopted = false := by
    rw [eval_cycle_skip]
  exact ⟨⟨hne, (worker_boundary_text_monotone.2 s0 5 _).1 hne⟩,
    ⟨had, (worker_boundary_text_monotone.2 s0 5 _).2.1 had⟩,
    ⟨hsk, (worker_boundary_text_monotone.2 s0 1 []).2.2 hsk⟩⟩

/-- C3: on a wake-up where `max 0 (dur - 2) ≤ last_decoded_sec + 1/2`
(the target is within half a second of the confirmed boundary), the
worker skips the cycle: the engine is not called and the session —
confirmed text and boundary included — is unchanged. -/
theorem worker_skip_when_within_guard (s : RTSession) (dur : ℚ)
    (segs : List Seg)
    (h : max 0 (dur - 2) ≤ s.last_decoded_sec + 1/2) :
    workerCycle s dur segs = { sess := s, decoded := false, adopted := false } :=
  workerCycle_skip s dur segs h

/-- Instantiation of `worker_skip_when_within_guard`: duration 1s gives
target 0 ≤ 0 + 1/2, so the cycle is a no-op. -/
theorem worker_skip_when_within_guard_witness :
    max 0 ((1:ℚ) - 2) ≤ s0.last_decoded_sec + 1/2 ∧
    workerCycle s0 1 [] = { sess := s0, decoded := false, adopted := false } := by
  have h : max 0 ((1:ℚ) - 2) ≤ s0.last_decoded_sec + 1/2 := by norm_num [s0]
  exact ⟨h, worker_skip_when_within_guard s0 1 [] h⟩

/-- C4: the candidate transcript of an incremental decode is exactly the
in-order concatenation of the engine segments whose end time is at most
the computed target — segments ending after the target contribute
nothing — and the text adopted by a cycle is that concatenation for
`target = max 0 (dur - 2)`. -/
theorem cycle_candidate_filtered :
    (∀ (segs : List Seg) (target : ℚ),
        cycleText segs target = specCandidateText segs target) ∧
    (∀ (s : RTSession) (dur : ℚ) (segs : List Seg),
        (workerCycle s dur segs).adopted = true →
          (workerCycle s dur segs).sess.text_accum
            = specCandidateText segs (max 0 (dur - 2))) := by
  refine ⟨cycleText_eq_spec, fun s dur segs h => ?_⟩
  rw [(workerCycle_adopted s dur segs h).1, cycleText_eq_spec]

/-- Instantiation of `cycle_candidate_filtered` at an adopting cycle. -/
theorem cycle_candidate_filtered_witness :
    (workerCycle s0 5 [⟨"ab", 1⟩]).adopted = true ∧
    (workerCycle s0 5 [⟨"ab", 1⟩]).sess.text_accum
      = specCandidateText [⟨"ab", 1⟩] (max 0 (5 - 2)) := by
  have had : (workerCycle s0 5 [⟨"ab", 1⟩]).adopted = true := by
    rw [eval_cycle_adopt]
  exact ⟨had, cycle_candidate_filtered.2 s0 5 [⟨"ab", 1⟩] had⟩

lemma stopObservedIn_replicate_false :
    ∀ (n : Nat) (q : List Unit),
      stopObservedIn (List.replicate n (false, false)) q = false := by
  intro n
  induction n with
  | zero => intro q; rfl
  | succ m ih =>
    intro q
    cases q with
    | nil => simp [List.replicate_succ, stopObservedIn, ih]
    | cons u qrest => simp [List.replicate_succ, stopObservedIn, ih]

/-- The claim "the worker loop exits exactly when `stopped` is observed
and no further signal is pending" fails: with the stop flag set at the
top-of-loop test and one signal still queued, the loop exits immediately,
leaving the signal pending. -/
theorem worker_loop_drain_counterexample :
    (workerLoop [(true, true)] [()]).1 = true ∧
    (workerLoop [(true, true)] [()]).2 = [()] ∧
    ([()] : List Unit) ≠ [] := by
  exact ⟨rfl, rfl, by simp⟩

/-- C7 (amended): the worker loop exits exactly when the stop flag is
observed — at the top-of-loop test or immediately after a successful
dequeue — regardless of whether signals are still pending; in particular
a schedule in which the flag is never observed set never exits. -/
theorem worker_loop_exits_iff_stop_observed :
    (∀ (sched : List (Bool × Bool)) (q : List Unit),
        (workerLoop sched q).1 = stopObservedIn sched q) ∧
    (∀ (n : Nat) (q : List Unit),
        (workerLoop (List.replicate n (false, false)) q).1 = false) := by
  have main : ∀ (sched : List (Bool × Bool)) (q : List Unit),
      (workerLoop sched q).1 = stopObservedIn sched q := by
    intro sched
    induction sched with
    | nil => intro q; rfl
    | cons p rest ih =>
      intro q
      obtain ⟨stopTop, stopAfter⟩ := p
      by_cases hT : stopTop = true
      · simp [workerLoop, stopObservedIn, hT]
      · cases q with
        | nil => simp [workerLoop, stopObservedIn, hT, ih]
        | cons u qrest =>
          by_cases hA : stopAfter = true
          · simp [workerLoop, stopObservedIn, hT, hA]
          · simp [workerLoop, stopObservedIn, hT, hA, ih]
  exact ⟨main, fun n q => by rw [main, stopObservedIn_replicate_false]⟩

/-- C8: `FFmpegPipe.start` is a no-op while the process handle is set, and
the input-format hint is derived from the declared media type (lowered at
construction) by first match: ogg → ogg, webm → webm, mp4/mpeg → mp4,
anything else (including empty) → no format flag. -/
theorem pipe_start_idempotent_and_format_hint :
    (∀ (ff : FFmpegPipe) (proc rdr : Nat),
        ff.p.isSome = true → ff.start proc rdr = (ff, false)) ∧
    (∀ m : String,
        (strHasSub (strLower m) "ogg" = true →
          (FFmpegPipe.init m).in_args = ["-f", "ogg"]) ∧
        (strHasSub (strLower m) "ogg" = false →
          strHasSub (strLower m) "webm" = true →
          (FFmpegPipe.init m).in_args = ["-f", "webm"]) ∧
        (strHasSub (strLower m) "ogg" = false →
          strHasSub (strLower m) "webm" = false →
          (strHasSub (strLower m) "mp4" || strHasSub (strLower m) "mpeg") = true →
          (FFmpegPipe.init m).in_args = ["-f", "mp4"]) ∧
        (strHasSub (strLower m) "ogg" = false →
          strHasSub (strLower m) "webm" = false →
          strHasSub (strLower m) "mp4" = false →
          strHasSub (strLower m) "mpeg" = false →
          (FFmpegPipe.init m).in_args = [])) := by
  constructor
  · intro ff proc rdr h
    rcases ff with ⟨mt, p, r⟩
    cases p with
    | none => simp at h
    | some v => rfl
  · intro m
    refine ⟨fun h1 => ?_, fun h1 h2 => ?_, fun h1 h2 h3 => ?_,
      fun h1 h2 h3 h4 => ?_⟩
    all_goals simp_all [FFmpegPipe.in_args, FFmpegPipe.init]

/-- Instantiation of `pipe_start_idempotent_and_format_hint` at a started
pipe and at each media-type family, casing included. -/
theorem pipe_start_idempotent_and_format_hint_witness :
    (({ mtype := "", p := some 1, reader := none } : FFmpegPipe).start 2 3
        = ({ mtype := "", p := some 1, reader := none }, false)) ∧
    (FFmpegPipe.init "audio/OGG").in_args = ["-f", "ogg"] ∧
    (FFmpegPipe.init "audio/webm;codecs=opus").in_args = ["-f", "webm"] ∧
    (FFmpegPipe.init "video/mp4").in_args = ["-f", "mp4"] ∧
    (FFmpegPipe.init "text/plain").in_args = [] := by
  refine ⟨pipe_start_idempotent_and_format_hint.1 _ 2 3 rfl,
    (pipe_start_idempotent_and_format_hint.2 "audio/OGG").1 (by decide),
    (pipe_start_idempotent_and_format_hint.2 "audio/webm;codecs=opus").2.1
      (by decide) (by decide),
    (pipe_start_idempotent_and_format_hint.2 "video/mp4").2.2.1
      (by decide) (by decide) (by decide),
    (pipe_start_idempotent_and_format_hint.2 "text/plain").2.2.2
      (by decide) (by decide) (by decide) (by decide)⟩

/-- C10: after `FFmpegPipe.close` both handles are `None` whatever the
inner calls did (they are each wrapped in `try/except` and the clearing
is in `finally`), every subsequent `write` returns `False` for every
payload, and a further `close` changes nothing and performs no action. -/
theorem pipe_close_clears_handles :
    ∀ (ff : FFmpegPipe) (e1 e2 e3 : Bool),
      (ff.close e1 e2 e3).1.p = none ∧
      (ff.close e1 e2 e3).1.reader = none ∧
      (∀ (data : List Nat) (osOk : Bool),
          (ff.close e1 e2 e3).1.write data osOk = false) ∧
      (∀ (f1 f2 f3 : Bool),
          (ff.close e1 e2 e3).1.close f1 f2 f3 = ((ff.close e1 e2 e3).1, [])) := by
  intro ff e1 e2 e3
  refine ⟨rfl, rfl, fun data osOk => rfl, fun f1 f2 f3 => ?_⟩
  simp [FFmpegPipe.close]

/-- C5: `rt_push` returns 400 when the session id is missing (or empty)
and, for a known session, 400 when the uploaded chunk is absent; 410 when
the id does not resolve to a session; for a nonempty fragment the
response is decided solely by the boolean result of `pipe.write` on the
(lazily started) pipe — 200 on `true`, 410 Gone on `false` — so a pipe
failure surfaces as a status code, never as an exception; an empty
fragment returns 200. -/
theorem push_status_characterization :
    ∀ (sid : Option String) (mtype : String) (chunk : Option (List Nat))
      (sess : Option RTSession) (writeOk : Bool) (proc rdr : Nat),
      (formFalsy sid = true →
        (rt_push sid mtype chunk sess writeOk proc rdr).1
          = { body := "missing sid", status := 400 }) ∧
      (formFalsy sid = false → sess = none →
        (rt_push sid mtype chunk sess writeOk proc rdr).1
          = { body := "gone", status := 410 }) ∧
      (∀ s : RTSession, formFalsy sid = false → sess = some s → chunk = none →
        (rt_push sid mtype chunk sess writeOk proc rdr).1
          = { body := "no chunk", status := 400 }) ∧
      (∀ (s : RTSession) (data : List Nat),
        formFalsy sid = false → sess = some s → chunk = some data →
        data.isEmpty = true →
        (rt_push sid mtype chunk sess writeOk proc rdr).1
          = { body := "ok", status := 200 }) ∧
      (∀ (s : RTSession) (data : List Nat),
        formFalsy sid = false → sess = some s → chunk = some data →
        data.isEmpty = false →
        (rt_push sid mtype chunk sess writeOk proc rdr).1
          = (if (match s.ff with
                 | some ffp => ffp
                 | none => ((FFmpegPipe.init mtype).start proc rdr).1).write
                data writeOk
             then { body := "ok", status := 200 }
             else { body := "gone", status := 410 })) := by
  intro sid mtype chunk sess writeOk proc rdr
  refine ⟨fun h => by simp [rt_push, h], ?_, ?_, ?_, ?_⟩
  · intro h hs
    subst hs
    simp [rt_push, h]
  · intro s h hs hc
    subst hs; subst hc
    simp [rt_push, h]
  · intro s data h hs hc hd
    subst hs; subst hc
    simp [rt_push, h, hd]
  · intro s data h hs hc hd
    subst hs; subst hc
    cases hff : s.ff with
    | none =>
      cases hw : (((FFmpegPipe.init mtype).start proc rdr).1).write data writeOk
        with
      | false => simp [rt_push, h, hd, hff, hw]
      | true => simp [rt_push, h, hd, hff, hw]
    | some ffp =>
      cases hw : ffp.write data writeOk with
      | false => simp [rt_push, h, hd, hff, hw]
      | true => simp [rt_push, h, hd, hff, hw]

/-- C9: pushing an empty fragment to an existing session returns 200 "ok"
and is a complete no-op: the session (pipe, wav sink, signal queue
included) is returned unchanged, no pipe is started and nothing is
written. -/
theorem push_empty_fragment_noop :
    ∀ (sid : Option String) (mtype : String) (sess : RTSession)
      (writeOk : Bool) (proc rdr : Nat),
      formFalsy sid = false →
      rt_push sid mtype (some []) (some sess) writeOk proc rdr
        = ({ body := "ok", status := 200 }, some sess,
           { pipeStarted := false, wrote := none }) := by
  intro sid mtype sess writeOk proc rdr h
  simp [rt_push, h]

/-- Instantiation of `push_empty_fragment_noop` at a concrete session. -/
theorem push_empty_fragment_noop_witness :
    formFalsy (some "a") = false ∧
    rt_push (some "a") "" (some []) (some s0) true 0 0
      = ({ body := "ok", status := 200 }, some s0,
         { pipeStarted := false, wrote := none }) :=
  ⟨rfl, push_empty_fragment_noop (some "a") "" s0 true 0 0 rfl⟩

/-- Instantiation of `push_status_characterization`: each status case at a
concrete request. -/
theorem push_status_characterization_witness :
    (rt_push none "" none none true 0 0).1
      = { body := "missing sid", status := 400 } ∧
    (rt_push (some "a") "" none none true 0 0).1
      = { body := "gone", status := 410 } ∧
    (rt_push (some "a") "" none (some s0) true 0 0).1
      = { body := "no chunk", status := 400 } ∧
    (rt_push (some "a") "" (some []) (some s0) true 0 0).1
      = { body := "ok", status := 200 } ∧
    (rt_push (some "a") "" (some [1]) (some s0) false 0 0).1
      = { body := "gone", status := 410 } ∧
    (rt_push (some "a") "" (some [1]) (some s0) true 0 0).1
      = { body := "ok", status := 200 } := by
  have t := push_status_characterization
  refine ⟨(t none "" none none true 0 0).1 rfl,
    (t (some "a") "" none none true 0 0).2.1 rfl rfl,
    (t (some "a") "" none (some s0) true 0 0).2.2.1 s0 rfl rfl rfl,
    (t (some "a") "" (some []) (some s0) true 0 0).2.2.2.1 s0 [] rfl rfl rfl rfl,
    ?_, ?_⟩
  · have h5 := (t (some "a") "" (some [1]) (some s0) false 0 0).2.2.2.2
      s0 [1] rfl rfl rfl rfl
    simpa [s0, FFmpegPipe.init, FFmpegPipe.start, FFmpegPipe.write] using h5
  · have h6 := (t (some "a") "" (some [1]) (some s0) true 0 0).2.2.2.2
      s0 [1] rfl rfl rfl rfl
    simpa [s0, FFmpegPipe.init, FFmpegPipe.start, FFmpegPipe.write] using h6

lemma erase_append_self (qid : Nat) : ∀ (subs : List Nat), qid ∉ subs →
    (subs ++ [qid]).erase qid = subs := by
  intro subs
  induction subs with
  | nil => intro h; simp
  | cons a t ih =>
    intro h
    have ha : qid ≠ a := fun e => h (e ▸ List.mem_cons_self a t)
    have ht : qid ∉ t := fun m => h (List.mem_cons_of_mem a m)
    rw [List.cons_append, List.erase_cons_tail (by simpa using Ne.symm ha),
      ih ht]

/-- C6: a stream subscriber's first delivered event is the confirmed text
at subscription time (empty included); an iteration whose wait timed out
emits the current confirmed text as heartbeat; and whatever the number of
events the client consumed before the generator closed, the subscriber
channel is removed from the subscriber list on exit (it was appended on
entry). -/
theorem stream_first_event_heartbeat_detach :
    (∀ (initAccum : String) (steps : List StreamStep) (subs : List Nat)
        (qid : Nat) (consumed : Nat),
        1 ≤ consumed →
        (rt_stream subs qid initAccum steps consumed).1.head? = some initAccum) ∧
    (∀ (st : StreamStep) (rest : List StreamStep),
        st.stopFlag = false → st.outcome = WaitOutcome.timedOut →
        streamBody (st :: rest) = st.accum :: streamBody rest) ∧
    (∀ (subs : List Nat) (qid : Nat) (initAccum : String)
        (steps : List StreamStep) (consumed : Nat),
        qid ∉ subs →
        (rt_stream subs qid initAccum steps consumed).2 = subs) := by
  refine ⟨?_, ?_, ?_⟩
  · intro initAccum steps subs qid consumed h
    cases consumed with
    | zero => exact absurd h (by simp)
    | succ n => rfl
  · intro st rest h1 h2
    simp [streamBody, streamEvent, h1, h2]
  · intro subs qid initAccum steps consumed h
    exact erase_append_self qid subs h

/-- Instantiation of `stream_first_event_heartbeat_detach`: empty initial
text, a heartbeat step, and detach after one consumed event. -/
theorem stream_first_event_heartbeat_detach_witness :
    (1:Nat) ≤ 1 ∧
    (rt_stream [] 0 "" [] 1).1.head? = some "" ∧
    streamBody [⟨false, WaitOutcome.timedOut, "hb"⟩] = ["hb"] ∧
    (0:Nat) ∉ ([] : List Nat) ∧
    (rt_stream [] 0 "" [] 1).2 = [] := by
  refine ⟨le_refl 1,
    stream_first_event_heartbeat_detach.1 "" [] [] 0 1 (le_refl 1),
    stream_first_event_heartbeat_detach.2.1 ⟨false, WaitOutcome.timedOut, "hb"⟩
      [] rfl rfl,
    by simp,
    stream_first_event_heartbeat_detach.2.2 [] 0 "" [] 1 (by simp)⟩

lemma finalText_eq_join (segs : List Seg) :
    finalText segs = String.join (segs.map Seg.text) := by
  show _ = (segs.map Seg.text).foldl (fun r s => r ++ s) ""
  rw [List.foldl_map]
  rfl

/-- C2: `rt_stop` performs one final decode with no trailing guard — the
new confirmed text is the concatenation of every returned segment — and
replaces the confirmed text unconditionally (no length comparison),
broadcasts it, sets the stop flag and returns it; if the decode raised,
the previous confirmed text is retained and returned, and the request
still does not fail. -/
theorem stop_finalize_unconditional :
    (∀ (s : RTSession) (segs : List Seg),
        (rt_stop s (.ok segs)).1.text_accum = finalText segs ∧
        finalText segs = String.join (segs.map Seg.text) ∧
        (rt_stop s (.ok segs)).1.sse_subs
          = _notify_subscribers s.sse_subs (finalText segs) ∧
        (rt_stop s (.ok segs)).1.stop_flag = true ∧
        (rt_stop s (.ok segs)).2
          = { returned := finalText segs, decodes := 1, httpFailed := false }) ∧
    (∀ s : RTSession,
        (rt_stop s (.error ())).1.text_accum = s.text_accum ∧
        (rt_stop s (.error ())).1.stop_flag = true ∧
        (rt_stop s (.error ())).2
          = { returned := s.text_accum, decodes := 1, httpFailed := false }) := by
  exact ⟨fun s segs => ⟨rfl, finalText_eq_join segs, rfl, rfl, rfl⟩,
    fun s => ⟨rfl, rfl, rfl⟩⟩
